import Mathlib

/-!
# Focus arbitration of the media framework (`framework/src/media/FocusManager.cpp`)

A shallow embedding of `media::FocusManager`: the focus list `mFocusList` is a
`List` of holders, every operation is a pure function from the list (and the
request) to a return code, the new list and the sequence of `notify` calls it
made, in order.

The header `media/FocusManager.h` and the stream policy enumeration are not part
of the sources at hand, so the two enumerators the code mentions,
`STREAM_TYPE_BIXBY` and `STREAM_TYPE_MEDIA`, are parameters of the functions
that use them.  A focus request always carries a stream descriptor here: the
code dereferences `getStreamInfo()` without a check, so a request without one is
outside what the functions are defined on.
-/

namespace media

/-- Stream descriptor `stream_info_t`: the stream id and its policy (an
enumerator, compared as an integer). -/
structure stream_info_t where
  id : Nat
  policy : Int
  deriving DecidableEq, Repr

/-- Modelled from the spec: the return codes `FOCUS_REQUEST_SUCCESS`,
`FOCUS_REQUEST_FAIL` and `FOCUS_REQUEST_DELAY` of the missing header, as three
distinct values. -/
inductive FocusRequestResult where
  | FOCUS_REQUEST_SUCCESS
  | FOCUS_REQUEST_FAIL
  | FOCUS_REQUEST_DELAY
  deriving DecidableEq, Repr

/-- Modelled from the spec: the focus change events `FOCUS_GAIN`,
`FOCUS_GAIN_TRANSIENT`, `FOCUS_LOSS` and `FOCUS_LOSS_TRANSIENT` of the missing
header, as four distinct values. -/
inductive FocusChange where
  | FOCUS_GAIN
  | FOCUS_GAIN_TRANSIENT
  | FOCUS_LOSS
  | FOCUS_LOSS_TRANSIENT
  deriving DecidableEq, Repr

open FocusRequestResult FocusChange

/-- A `FocusRequest` behind a non-null pointer: its stream descriptor and its
listener, a shared pointer that may be null (`none`); listeners are told apart by
a number. -/
structure FocusRequest where
  streamInfo : stream_info_t
  listener : Option Nat
  deriving DecidableEq, Repr

/-- The holder `FocusManager::FocusRequester` with its three members. -/
structure FocusRequester where
  mId : Nat
  mPolicy : Int
  mListener : Option Nat
  deriving DecidableEq, Repr

/-- The constructor `FocusRequester(stream_info, listener)` as it is called with
`focusRequest->getStreamInfo()` and `focusRequest->getListener()`. -/
def FocusRequester.ofRequest (focusRequest : FocusRequest) : FocusRequester :=
  { mId := focusRequest.streamInfo.id
    mPolicy := focusRequest.streamInfo.policy
    mListener := focusRequest.listener }

/-- `FocusRequester::hasSameId`. -/
def FocusRequester.hasSameId (a : FocusRequester) (focusRequest : FocusRequest) : Bool :=
  a.mId == focusRequest.streamInfo.id

/-- `FocusRequester::getStreamInfo`. -/
def FocusRequester.getStreamInfo (a : FocusRequester) : stream_info_t :=
  { id := a.mId, policy := a.mPolicy }

/-- `FocusRequester::compare`. -/
def FocusRequester.compare (STREAM_TYPE_BIXBY : Int) (a b : FocusRequester) : Bool :=
  if a.mPolicy ≤ STREAM_TYPE_BIXBY ∧ b.mPolicy ≤ STREAM_TYPE_BIXBY then
    true
  else
    decide (a.mPolicy ≥ b.mPolicy)

/-- One call of `FocusRequester::notify`: the holder it is called on and the
focus change passed. -/
abbrev Notification := FocusRequester × FocusChange

/-- What a `notify` call does: `onFocusChange` of the holder's listener when the
listener is not null, nothing otherwise.  The result lists the callbacks made, as
listener and event. -/
def delivered : List Notification → List (Nat × FocusChange)
  | [] => []
  | (h, e) :: rest =>
    match h.mListener with
    | some l => (l, e) :: delivered rest
    | none => delivered rest

/-- The outcome of one operation: the value returned, `mFocusList` afterwards,
and the `notify` calls made, first to last. -/
structure Outcome where
  ret : FocusRequestResult
  mFocusList : List FocusRequester
  notified : List Notification
  deriving DecidableEq, Repr

/-- `FocusManager::removeFocusElement`: the loop erases every holder with the
request's id and steps over the others. -/
def removeFocusElement : List FocusRequester → FocusRequest → List FocusRequester
  | [], _ => []
  | h :: t, focusRequest =>
    if h.hasSameId focusRequest then
      removeFocusElement t focusRequest
    else
      h :: removeFocusElement t focusRequest

/-- The scan of `insertFocusElement` from the second position on
(`while (++iter != end)`): the new holder goes in before the first holder it
compares true against, and `push_back` puts it last when the scan reaches
`mFocusList.end()`. -/
def scanInsert (STREAM_TYPE_BIXBY : Int) (focusRequester : FocusRequester) :
    List FocusRequester → List FocusRequester
  | [] => [focusRequester]
  | h :: t =>
    if FocusRequester.compare STREAM_TYPE_BIXBY focusRequester h then
      focusRequester :: h :: t
    else
      h :: scanInsert STREAM_TYPE_BIXBY focusRequester t

/-- The event passed on a gain, by the transient flag. -/
def gainEvent (isTransientRequest : Bool) : FocusChange :=
  if isTransientRequest then FOCUS_GAIN_TRANSIENT else FOCUS_GAIN

/-- The event passed on a loss, by the transient flag. -/
def lossEvent (isTransientRequest : Bool) : FocusChange :=
  if isTransientRequest then FOCUS_LOSS_TRANSIENT else FOCUS_LOSS

/-- `FocusManager::insertFocusElement`.  The result is `none` exactly where the
code would read `*iter` with `iter == mFocusList.end()`, that is when the list is
empty after `removeFocusElement`. -/
def insertFocusElement (STREAM_TYPE_BIXBY : Int) (mFocusList : List FocusRequester)
    (focusRequest : FocusRequest) (isTransientRequest : Bool) : Option Outcome :=
  match mFocusList with
  | [] =>
    let focusRequester := FocusRequester.ofRequest focusRequest
    some ⟨FOCUS_REQUEST_SUCCESS, [focusRequester],
      [(focusRequester, gainEvent isTransientRequest)]⟩
  | front :: _ =>
    if front.hasSameId focusRequest then
      some ⟨FOCUS_REQUEST_SUCCESS, mFocusList, []⟩
    else
      let focusRequester := FocusRequester.ofRequest focusRequest
      match removeFocusElement mFocusList focusRequest with
      | [] => none
      | first :: rest =>
        if FocusRequester.compare STREAM_TYPE_BIXBY focusRequester first then
          some ⟨FOCUS_REQUEST_SUCCESS, focusRequester :: first :: rest,
            [(first, lossEvent isTransientRequest),
             (focusRequester, gainEvent isTransientRequest)]⟩
        else
          some ⟨FOCUS_REQUEST_DELAY,
            first :: scanInsert STREAM_TYPE_BIXBY focusRequester rest, []⟩

/-- `FocusManager::requestFocus`; a null `focusRequest` is `none`. -/
def requestFocus (STREAM_TYPE_BIXBY : Int) (mFocusList : List FocusRequester)
    (focusRequest : Option FocusRequest) : Option Outcome :=
  match focusRequest with
  | none => some ⟨FOCUS_REQUEST_FAIL, mFocusList, []⟩
  | some r => insertFocusElement STREAM_TYPE_BIXBY mFocusList r false

/-- `FocusManager::requestFocusTransient`; a null `focusRequest` is `none`. -/
def requestFocusTransient (STREAM_TYPE_BIXBY : Int) (mFocusList : List FocusRequester)
    (focusRequest : Option FocusRequest) : Option Outcome :=
  match focusRequest with
  | none => some ⟨FOCUS_REQUEST_FAIL, mFocusList, []⟩
  | some r => insertFocusElement STREAM_TYPE_BIXBY mFocusList r true

/-- `FocusManager::abandonFocus`; a null `focusRequest` is `none`. -/
def abandonFocus (mFocusList : List FocusRequester)
    (focusRequest : Option FocusRequest) : Outcome :=
  match focusRequest with
  | none => ⟨FOCUS_REQUEST_FAIL, mFocusList, []⟩
  | some r =>
    match mFocusList with
    | front :: rest =>
      if front.hasSameId r then
        match rest with
        | [] => ⟨FOCUS_REQUEST_SUCCESS, [], []⟩
        | next :: _ => ⟨FOCUS_REQUEST_SUCCESS, rest, [(next, FOCUS_GAIN)]⟩
      else
        ⟨FOCUS_REQUEST_SUCCESS, removeFocusElement mFocusList r, []⟩
    | [] => ⟨FOCUS_REQUEST_SUCCESS, removeFocusElement [] r, []⟩

/-- `FocusManager::getCurrentStreamInfo`. -/
def getCurrentStreamInfo (STREAM_TYPE_MEDIA : Int) (mFocusList : List FocusRequester) :
    stream_info_t :=
  match mFocusList with
  | [] => { id := 0, policy := STREAM_TYPE_MEDIA }
  | front :: _ => front.getStreamInfo

/-- The focus lists the manager can hold: it starts empty (the singleton's
member is default constructed) and changes only through `requestFocus`,
`requestFocusTransient` and `abandonFocus`, each called with a request or with a
null pointer. -/
inductive Reachable (STREAM_TYPE_BIXBY : Int) : List FocusRequester → Prop where
  | init : Reachable STREAM_TYPE_BIXBY []
  | request (q : List FocusRequester) (focusRequest : Option FocusRequest) (o : Outcome) :
      Reachable STREAM_TYPE_BIXBY q →
      requestFocus STREAM_TYPE_BIXBY q focusRequest = some o →
      Reachable STREAM_TYPE_BIXBY o.mFocusList
  | requestTransient (q : List FocusRequester) (focusRequest : Option FocusRequest)
      (o : Outcome) :
      Reachable STREAM_TYPE_BIXBY q →
      requestFocusTransient STREAM_TYPE_BIXBY q focusRequest = some o →
      Reachable STREAM_TYPE_BIXBY o.mFocusList
  | abandon (q : List FocusRequester) (focusRequest : Option FocusRequest) :
      Reachable STREAM_TYPE_BIXBY q →
      Reachable STREAM_TYPE_BIXBY (abandonFocus q focusRequest).mFocusList

/-- No two holders of the list carry the same stream id. -/
def UniqueIds (q : List FocusRequester) : Prop :=
  q.Pairwise (fun a b => a.mId ≠ b.mId)

/-- Every holder compares true against every holder behind it. -/
def Descending (STREAM_TYPE_BIXBY : Int) (q : List FocusRequester) : Prop :=
  q.Pairwise (fun a b => FocusRequester.compare STREAM_TYPE_BIXBY a b = true)

/-- The request entry point by the transient flag: `requestFocusTransient` for
`true`, `requestFocus` for `false`. -/
def requestFocusBy (STREAM_TYPE_BIXBY : Int) (isTransientRequest : Bool)
    (mFocusList : List FocusRequester) (focusRequest : Option FocusRequest) :
    Option Outcome :=
  if isTransientRequest then
    requestFocusTransient STREAM_TYPE_BIXBY mFocusList focusRequest
  else
    requestFocus STREAM_TYPE_BIXBY mFocusList focusRequest

/-- The front holder of the list has the stream id `id`. -/
def FrontHasId (q : List FocusRequester) (id : Nat) : Prop :=
  ∃ f, q.head? = some f ∧ f.mId = id

/-- Some holder behind the front (position 1 or later) has the stream id
`id`. -/
def BehindFrontHasId (q : List FocusRequester) (id : Nat) : Prop :=
  ∃ h ∈ q.tail, h.mId = id

/-- The return code matches the position, in the words of the specification: the
code is `SUCCESS` or `DELAY`, it is `SUCCESS` exactly when the front of the
resulting list has the request's id, and `DELAY` exactly when a holder with the
request's id sits behind the front of the resulting list. -/
def ReturnMatchesPosition (o : Outcome) (focusRequest : FocusRequest) : Prop :=
  (o.ret = FOCUS_REQUEST_SUCCESS ∨ o.ret = FOCUS_REQUEST_DELAY) ∧
  (o.ret = FOCUS_REQUEST_SUCCESS ↔ FrontHasId o.mFocusList focusRequest.streamInfo.id) ∧
  (o.ret = FOCUS_REQUEST_DELAY ↔ BehindFrontHasId o.mFocusList focusRequest.streamInfo.id)

/-- Two holders are tied, in the words of the specification: both policies are
in the assistant range (at most `STREAM_TYPE_BIXBY`), or both are the same value
above it. -/
def Tied (STREAM_TYPE_BIXBY : Int) (a b : FocusRequester) : Prop :=
  (a.mPolicy ≤ STREAM_TYPE_BIXBY ∧ b.mPolicy ≤ STREAM_TYPE_BIXBY) ∨
  (STREAM_TYPE_BIXBY < a.mPolicy ∧ a.mPolicy = b.mPolicy)

/-- The transient variant of a focus change: `FOCUS_GAIN_TRANSIENT` for
`FOCUS_GAIN`, `FOCUS_LOSS_TRANSIENT` for `FOCUS_LOSS`. -/
def FocusChange.toTransient : FocusChange → FocusChange
  | FOCUS_GAIN => FOCUS_GAIN_TRANSIENT
  | FOCUS_LOSS => FOCUS_LOSS_TRANSIENT
  | e => e

end media

/-!
# The data abort handler with on-demand paging (`os/arch/arm/src/armv7-a/arm_dataabort.c`)

The `CONFIG_PAGING` variant of `arm_dataabort`.  Pointers and `uint32_t` values
are natural numbers; the handler only compares and masks them.  The constants of
the headers that are not part of the sources at hand (`FSR_MASK`, `FSR_PAGE`,
`PG_PAGED_VBASE`, `PG_PAGED_VEND`, `REG_R15`) and the function `pg_miss` are
parameters.
-/

namespace armv7a

/-- The constants `arm_dataabort` takes from `arm.h`, `tinyara/page.h` and
`arch/irq.h`. -/
structure PagingConstants where
  FSR_MASK : Nat
  FSR_PAGE : Nat
  PG_PAGED_VBASE : Nat
  PG_PAGED_VEND : Nat
  REG_R15 : Nat
  deriving DecidableEq, Repr

/-- The state the handler reads and writes: the global `CURRENT_REGS` (a
pointer, `0` for `NULL`) and the member `xcp.dfar` of the TCB `this_task()`
returns. -/
structure HandlerState where
  CURRENT_REGS : Nat
  xcp_dfar : Nat
  deriving DecidableEq, Repr

/-- How a call of `arm_dataabort` ends: it returns a pointer, with the state on
return and the state `pg_miss` was entered with, or it reaches `PANIC()` on the
`segfault` path, with the state at that point. -/
inductive AbortOutcome where
  | returned (ret : Nat) (finalState : HandlerState) (atPgMiss : HandlerState)
  | panicked (atPanic : HandlerState)
  deriving DecidableEq, Repr

/-- `arm_dataabort` under `CONFIG_PAGING`.  `regs` is the pointer passed and
`regsAt` the words of the register save array it points to; `pg_miss` is the
effect of the call of that name on the state.  The debug output (`pginfo`,
`print_dataabort_detail`) and the reboot reason written before `PANIC()` are
outside the state and left out. -/
def arm_dataabort (c : PagingConstants) (pg_miss : HandlerState → HandlerState)
    (s : HandlerState) (regs : Nat) (regsAt : Nat → Nat) (dfar dfsr : Nat) : AbortOutcome :=
  let savestate := s.CURRENT_REGS
  let s1 : HandlerState := { s with CURRENT_REGS := regs }
  if (dfsr &&& c.FSR_MASK) ≠ c.FSR_PAGE then
    AbortOutcome.panicked s1
  else if dfar < c.PG_PAGED_VBASE ∨ dfar ≥ c.PG_PAGED_VEND then
    AbortOutcome.panicked s1
  else
    let s2 : HandlerState := { s1 with xcp_dfar := regsAt c.REG_R15 }
    let s3 := pg_miss s2
    AbortOutcome.returned regs { s3 with CURRENT_REGS := savestate } s2

end armv7a

namespace media

open FocusRequestResult FocusChange

/-! ## Auxiliary facts -/

theorem compare_true_iff (B : Int) (a b : FocusRequester) :
    FocusRequester.compare B a b = true ↔
      (a.mPolicy ≤ B ∧ b.mPolicy ≤ B) ∨ b.mPolicy ≤ a.mPolicy := by
  unfold FocusRequester.compare
  split_ifs with h
  · simp [h]
  · simp only [ge_iff_le, decide_eq_true_eq]
    constructor
    · intro hle; exact Or.inr hle
    · rintro (hc | hle)
      · exact absurd hc h
      · exact hle

theorem compare_false_iff (B : Int) (a b : FocusRequester) :
    FocusRequester.compare B a b = false ↔
      ¬ (a.mPolicy ≤ B ∧ b.mPolicy ≤ B) ∧ a.mPolicy < b.mPolicy := by
  rw [← Bool.not_eq_true, compare_true_iff]
  constructor
  · intro h
    refine ⟨fun hc => h (Or.inl hc), ?_⟩
    by_contra hlt
    exact h (Or.inr (not_lt.mp hlt))
  · rintro ⟨h1, h2⟩ (hc | hle)
    · exact h1 hc
    · exact absurd h2 (not_lt.mpr hle)

theorem compare_trans (B : Int) (a b c : FocusRequester)
    (hab : FocusRequester.compare B a b = true)
    (hbc : FocusRequester.compare B b c = true) :
    FocusRequester.compare B a c = true := by
  rw [compare_true_iff] at hab hbc ⊢
  omega

theorem compare_of_not_compare (B : Int) (a b : FocusRequester)
    (hab : FocusRequester.compare B a b = false) :
    FocusRequester.compare B b a = true := by
  rw [compare_false_iff] at hab
  rw [compare_true_iff]
  omega

theorem hasSameId_iff (h : FocusRequester) (r : FocusRequest) :
    h.hasSameId r = true ↔ h.mId = r.streamInfo.id := by
  simp [FocusRequester.hasSameId]

theorem hasSameId_false_iff (h : FocusRequester) (r : FocusRequest) :
    h.hasSameId r = false ↔ h.mId ≠ r.streamInfo.id := by
  simp [FocusRequester.hasSameId]

theorem removeFocusElement_eq_filter (q : List FocusRequester) (r : FocusRequest) :
    removeFocusElement q r = q.filter (fun h => !h.hasSameId r) := by
  induction q with
  | nil => rfl
  | cons h t ih =>
    by_cases hs : h.hasSameId r = true
    · simp [removeFocusElement, hs, ih]
    · simp [removeFocusElement, hs, ih]

theorem mem_removeFocusElement (q : List FocusRequester) (r : FocusRequest)
    (x : FocusRequester) :
    x ∈ removeFocusElement q r ↔ x ∈ q ∧ x.mId ≠ r.streamInfo.id := by
  rw [removeFocusElement_eq_filter, List.mem_filter]
  simp [FocusRequester.hasSameId]

theorem removeFocusElement_sublist (q : List FocusRequester) (r : FocusRequest) :
    (removeFocusElement q r).Sublist q := by
  rw [removeFocusElement_eq_filter]
  exact List.filter_sublist q

theorem removeFocusElement_cons_of_ne (f : FocusRequester) (t : List FocusRequester)
    (r : FocusRequest) (hf : f.hasSameId r = false) :
    removeFocusElement (f :: t) r = f :: removeFocusElement t r := by
  simp [removeFocusElement, hf]

theorem mem_scanInsert (B : Int) (fr : FocusRequester) (l : List FocusRequester)
    (x : FocusRequester) :
    x ∈ scanInsert B fr l ↔ x = fr ∨ x ∈ l := by
  induction l with
  | nil => simp [scanInsert]
  | cons h t ih =>
    unfold scanInsert
    split_ifs with hc
    · simp
    · simp only [List.mem_cons, ih]
      tauto

theorem uniqueIds_scanInsert (B : Int) (fr : FocusRequester) (l : List FocusRequester)
    (hl : UniqueIds l) (hfr : ∀ x ∈ l, x.mId ≠ fr.mId) :
    UniqueIds (scanInsert B fr l) := by
  induction l with
  | nil => simp [scanInsert, UniqueIds]
  | cons h t ih =>
    unfold UniqueIds at hl
    rw [List.pairwise_cons] at hl
    unfold scanInsert
    split_ifs with hc
    · unfold UniqueIds
      rw [List.pairwise_cons, List.pairwise_cons]
      refine ⟨?_, hl.1, hl.2⟩
      intro x hx
      exact fun e => hfr x hx e.symm
    · unfold UniqueIds
      rw [List.pairwise_cons]
      refine ⟨?_, ih hl.2 (fun x hx => hfr x (List.mem_cons_of_mem _ hx))⟩
      intro x hx
      rw [mem_scanInsert] at hx
      rcases hx with rfl | hx
      · exact hfr h (List.mem_cons_self _ _)
      · exact hl.1 x hx

theorem descending_scanInsert (B : Int) (fr : FocusRequester) (l : List FocusRequester)
    (hl : Descending B l) : Descending B (scanInsert B fr l) := by
  induction l with
  | nil => simp [scanInsert, Descending]
  | cons h t ih =>
    unfold Descending at hl
    rw [List.pairwise_cons] at hl
    unfold scanInsert
    split_ifs with hc
    · unfold Descending
      rw [List.pairwise_cons, List.pairwise_cons]
      refine ⟨?_, hl.1, hl.2⟩
      intro x hx
      rcases List.mem_cons.mp hx with rfl | hx
      · exact hc
      · exact compare_trans B fr h x hc (hl.1 x hx)
    · unfold Descending
      rw [List.pairwise_cons]
      refine ⟨?_, ih hl.2⟩
      intro x hx
      rw [mem_scanInsert] at hx
      rcases hx with rfl | hx
      · exact compare_of_not_compare B _ _ (by simpa using hc)
      · exact hl.1 x hx

/-- Shape of a successful `insertFocusElement` on a non-empty list whose front
has another id: the purge keeps the front, and the result is either the new
holder pushed in front of the purged list or the scan applied to it. -/
theorem insertFocusElement_cons_of_ne (B : Int) (f : FocusRequester)
    (t : List FocusRequester) (r : FocusRequest) (tr : Bool)
    (hf : f.hasSameId r = false) :
    insertFocusElement B (f :: t) r tr =
      if FocusRequester.compare B (FocusRequester.ofRequest r) f then
        some ⟨FOCUS_REQUEST_SUCCESS,
          FocusRequester.ofRequest r :: f :: removeFocusElement t r,
          [(f, lossEvent tr), (FocusRequester.ofRequest r, gainEvent tr)]⟩
      else
        some ⟨FOCUS_REQUEST_DELAY,
          f :: scanInsert B (FocusRequester.ofRequest r) (removeFocusElement t r), []⟩ := by
  simp only [insertFocusElement, hf, removeFocusElement_cons_of_ne f t r hf]
  simp

theorem insertFocusElement_uniqueIds (B : Int) (q : List FocusRequester)
    (r : FocusRequest) (tr : Bool) (o : Outcome) (hq : UniqueIds q)
    (ho : insertFocusElement B q r tr = some o) : UniqueIds o.mFocusList := by
  cases q with
  | nil =>
    simp only [insertFocusElement, Option.some.injEq] at ho
    subst ho
    simp [UniqueIds]
  | cons f t =>
    by_cases hf : f.hasSameId r = true
    · simp only [insertFocusElement, hf, if_true, Option.some.injEq] at ho
      subst ho
      exact hq
    · have hf' : f.hasSameId r = false := by simpa using hf
      rw [insertFocusElement_cons_of_ne B f t r tr hf'] at ho
      have hpur : UniqueIds (f :: removeFocusElement t r) := by
        rw [← removeFocusElement_cons_of_ne f t r hf']
        exact List.Pairwise.sublist (removeFocusElement_sublist _ r) hq
      have hfresh : ∀ x ∈ f :: removeFocusElement t r,
          x.mId ≠ (FocusRequester.ofRequest r).mId := by
        intro x hx
        rw [← removeFocusElement_cons_of_ne f t r hf', mem_removeFocusElement] at hx
        exact hx.2
      split_ifs at ho with hc
      · simp only [Option.some.injEq] at ho
        subst ho
        show UniqueIds (_ :: _)
        unfold UniqueIds
        rw [List.pairwise_cons]
        exact ⟨fun x hx e => hfresh x hx e.symm, hpur⟩
      · simp only [Option.some.injEq] at ho
        subst ho
        have hs := uniqueIds_scanInsert B (FocusRequester.ofRequest r)
          (f :: removeFocusElement t r) hpur hfresh
        have hc' : FocusRequester.compare B (FocusRequester.ofRequest r) f = false := by
          simpa using hc
        simpa [scanInsert, hc'] using hs

theorem insertFocusElement_descending (B : Int) (q : List FocusRequester)
    (r : FocusRequest) (tr : Bool) (o : Outcome) (hq : Descending B q)
    (ho : insertFocusElement B q r tr = some o) : Descending B o.mFocusList := by
  cases q with
  | nil =>
    simp only [insertFocusElement, Option.some.injEq] at ho
    subst ho
    simp [Descending]
  | cons f t =>
    by_cases hf : f.hasSameId r = true
    · simp only [insertFocusElement, hf, if_true, Option.some.injEq] at ho
      subst ho
      exact hq
    · have hf' : f.hasSameId r = false := by simpa using hf
      rw [insertFocusElement_cons_of_ne B f t r tr hf'] at ho
      have hpur : Descending B (f :: removeFocusElement t r) := by
        rw [← removeFocusElement_cons_of_ne f t r hf']
        exact List.Pairwise.sublist (removeFocusElement_sublist _ r) hq
      have hs := descending_scanInsert B (FocusRequester.ofRequest r)
        (f :: removeFocusElement t r) hpur
      split_ifs at ho with hc
      · simp only [Option.some.injEq] at ho
        subst ho
        simpa [scanInsert, hc] using hs
      · simp only [Option.some.injEq] at ho
        subst ho
        have hc' : FocusRequester.compare B (FocusRequester.ofRequest r) f = false := by
          simpa using hc
        simpa [scanInsert, hc'] using hs

theorem abandonFocus_sublist (q : List FocusRequester) (req : Option FocusRequest) :
    (abandonFocus q req).mFocusList.Sublist q := by
  cases req with
  | none => exact List.Sublist.refl q
  | some r =>
    cases q with
    | nil => simp [abandonFocus, removeFocusElement]
    | cons f t =>
      by_cases hf : f.hasSameId r = true
      · cases t with
        | nil => simp [abandonFocus, hf]
        | cons g u => simp [abandonFocus, hf]
      · have hf' : f.hasSameId r = false := by simpa using hf
        simp only [abandonFocus, hf', Bool.false_eq_true, if_false]
        exact removeFocusElement_sublist _ r

theorem reachable_uniqueIds (B : Int) (q : List FocusRequester) (hq : Reachable B q) :
    UniqueIds q := by
  induction hq with
  | init => simp [UniqueIds]
  | request q req o _ ho ih =>
    cases req with
    | none =>
      simp only [requestFocus, Option.some.injEq] at ho
      subst ho
      exact ih
    | some r => exact insertFocusElement_uniqueIds B q r false o ih ho
  | requestTransient q req o _ ho ih =>
    cases req with
    | none =>
      simp only [requestFocusTransient, Option.some.injEq] at ho
      subst ho
      exact ih
    | some r => exact insertFocusElement_uniqueIds B q r true o ih ho
  | abandon q req _ ih => exact List.Pairwise.sublist (abandonFocus_sublist q req) ih

theorem reachable_descending (B : Int) (q : List FocusRequester) (hq : Reachable B q) :
    Descending B q := by
  induction hq with
  | init => simp [Descending]
  | request q req o _ ho ih =>
    cases req with
    | none =>
      simp only [requestFocus, Option.some.injEq] at ho
      subst ho
      exact ih
    | some r => exact insertFocusElement_descending B q r false o ih ho
  | requestTransient q req o _ ho ih =>
    cases req with
    | none =>
      simp only [requestFocusTransient, Option.some.injEq] at ho
      subst ho
      exact ih
    | some r => exact insertFocusElement_descending B q r true o ih ho
  | abandon q req _ ih => exact List.Pairwise.sublist (abandonFocus_sublist q req) ih

/-- With `STREAM_TYPE_BIXBY = 1`: stream 1 of policy 0 is requested on the empty
list, stream 2 of policy 4 is requested next and takes the front. -/
theorem reachable_two :
    Reachable 1 [⟨2, 4, some 20⟩, ⟨1, 0, some 10⟩] :=
  Reachable.request [⟨1, 0, some 10⟩] (some ⟨⟨2, 4⟩, some 20⟩)
    ⟨FOCUS_REQUEST_SUCCESS, [⟨2, 4, some 20⟩, ⟨1, 0, some 10⟩],
      [(⟨1, 0, some 10⟩, FOCUS_LOSS), (⟨2, 4, some 20⟩, FOCUS_GAIN)]⟩
    (Reachable.request [] (some ⟨⟨1, 0⟩, some 10⟩)
      ⟨FOCUS_REQUEST_SUCCESS, [⟨1, 0, some 10⟩], [(⟨1, 0, some 10⟩, FOCUS_GAIN)]⟩
      Reachable.init (by decide))
    (by decide)

theorem requestFocusBy_some (B : Int) (tr : Bool) (q : List FocusRequester)
    (r : FocusRequest) :
    requestFocusBy B tr q (some r) = insertFocusElement B q r tr := by
  cases tr <;> rfl

theorem filter_ne_eq_removeFocusElement (q : List FocusRequester) (r : FocusRequest) :
    q.filter (fun h => decide (h.mId ≠ r.streamInfo.id)) = removeFocusElement q r := by
  rw [removeFocusElement_eq_filter]
  congr 1
  funext h
  by_cases e : h.mId = r.streamInfo.id <;> simp [e, FocusRequester.hasSameId]

theorem scanInsert_split (B : Int) (fr : FocusRequester) (l : List FocusRequester) :
    ∃ pre post, l = pre ++ post ∧ scanInsert B fr l = pre ++ fr :: post ∧
      (∀ h ∈ pre, FocusRequester.compare B fr h = false) ∧
      (∀ h, post.head? = some h → FocusRequester.compare B fr h = true) := by
  induction l with
  | nil => exact ⟨[], [], rfl, rfl, by simp, by simp⟩
  | cons x t ih =>
    by_cases hc : FocusRequester.compare B fr x = true
    · refine ⟨[], x :: t, rfl, by simp [scanInsert, hc], by simp, ?_⟩
      intro h hh
      simp only [List.head?_cons, Option.some.injEq] at hh
      subst hh
      exact hc
    · obtain ⟨pre, post, h1, h2, h3, h4⟩ := ih
      have hc' : FocusRequester.compare B fr x = false := by simpa using hc
      refine ⟨x :: pre, post, by simp [h1], by simp [scanInsert, hc', h2], ?_, h4⟩
      intro h hh
      rcases List.mem_cons.mp hh with rfl | hh
      · exact hc'
      · exact h3 h hh

theorem not_tied_of_compare_false (B : Int) (a b : FocusRequester)
    (hc : FocusRequester.compare B a b = false) : ¬ Tied B b a := by
  rw [compare_false_iff] at hc
  unfold Tied
  omega

/-- Where a request for an id other than the front's lands: the resulting list is
`pre ++ R :: post`, no holder of `pre` is tied with the new holder, and no holder
of `pre` or `post` has the request's id. -/
theorem insertFocusElement_split (B : Int) (q : List FocusRequester) (r : FocusRequest)
    (tr : Bool) (hfront : ∀ f, q.head? = some f → f.mId ≠ r.streamInfo.id) :
    ∃ o pre post, insertFocusElement B q r tr = some o ∧
      o.mFocusList = pre ++ FocusRequester.ofRequest r :: post ∧
      (∀ h ∈ pre, ¬ Tied B h (FocusRequester.ofRequest r)) ∧
      (∀ h ∈ pre ++ post, h.mId ≠ r.streamInfo.id) := by
  cases q with
  | nil => exact ⟨_, [], [], rfl, rfl, by simp, by simp⟩
  | cons f t =>
    have hid : f.mId ≠ r.streamInfo.id := hfront f rfl
    have hf : f.hasSameId r = false := (hasSameId_false_iff f r).mpr hid
    rw [insertFocusElement_cons_of_ne B f t r tr hf]
    by_cases hc : FocusRequester.compare B (FocusRequester.ofRequest r) f = true
    · rw [if_pos hc]
      refine ⟨_, [], f :: removeFocusElement t r, rfl, rfl, by simp, ?_⟩
      intro h hh
      rcases List.mem_cons.mp hh with rfl | hh
      · exact hid
      · exact ((mem_removeFocusElement t r h).mp hh).2
    · have hc' : FocusRequester.compare B (FocusRequester.ofRequest r) f = false := by
        simpa using hc
      rw [if_neg hc]
      obtain ⟨pre, post, h1, h2, h3, _⟩ :=
        scanInsert_split B (FocusRequester.ofRequest r) (removeFocusElement t r)
      refine ⟨_, f :: pre, post, rfl, by simp [h2], ?_, ?_⟩
      · intro h hh
        rcases List.mem_cons.mp hh with rfl | hh
        · exact not_tied_of_compare_false B _ _ hc'
        · exact not_tied_of_compare_false B _ _ (h3 h hh)
      · intro h hh
        rw [List.cons_append, ← h1] at hh
        rcases List.mem_cons.mp hh with rfl | hh
        · exact hid
        · exact ((mem_removeFocusElement t r h).mp hh).2

/-- With `STREAM_TYPE_BIXBY = 1`: stream 1 of policy 2 is requested on the empty
list, stream 2 of policy 4 is requested next and takes the front. -/
theorem reachable_pair :
    Reachable 1 [⟨2, 4, some 20⟩, ⟨1, 2, some 10⟩] :=
  Reachable.request [⟨1, 2, some 10⟩] (some ⟨⟨2, 4⟩, some 20⟩)
    ⟨FOCUS_REQUEST_SUCCESS, [⟨2, 4, some 20⟩, ⟨1, 2, some 10⟩],
      [(⟨1, 2, some 10⟩, FOCUS_LOSS), (⟨2, 4, some 20⟩, FOCUS_GAIN)]⟩
    (Reachable.request [] (some ⟨⟨1, 2⟩, some 10⟩)
      ⟨FOCUS_REQUEST_SUCCESS, [⟨1, 2, some 10⟩], [(⟨1, 2, some 10⟩, FOCUS_GAIN)]⟩
      Reachable.init (by decide))
    (by decide)

/-! ## The claims -/

/-- C1. Uniqueness: in every focus list reachable from the empty one by
`requestFocus`, `requestFocusTransient` and `abandonFocus` calls (with a request
or a null pointer), the holders at two different positions have different stream
ids. -/
theorem C1_unique_stream_ids (STREAM_TYPE_BIXBY : Int) (q : List FocusRequester)
    (hq : Reachable STREAM_TYPE_BIXBY q) (i j : Nat) (hi : i < q.length)
    (hj : j < q.length) (hij : i < j) : q[i].mId ≠ q[j].mId :=
  List.pairwise_iff_getElem.mp (reachable_uniqueIds STREAM_TYPE_BIXBY q hq) i j hi hj hij

/-- Witness of C1 on the reachable list of streams 2 and 1. -/
theorem C1_unique_stream_ids_witness :
    Reachable 1 [⟨2, 4, some 20⟩, ⟨1, 0, some 10⟩] ∧ (2 : Nat) ≠ 1 :=
  ⟨reachable_two,
    C1_unique_stream_ids 1 [⟨2, 4, some 20⟩, ⟨1, 0, some 10⟩] reachable_two 0 1
      (by decide) (by decide) (by decide)⟩

/-- C2. Ordering: in every focus list reachable from the empty one, the holder at
position `i` compares true (`FocusRequester::compare`) against the holder at
every later position `j`. -/
theorem C2_descending_precedence (STREAM_TYPE_BIXBY : Int) (q : List FocusRequester)
    (hq : Reachable STREAM_TYPE_BIXBY q) (i j : Nat) (hi : i < q.length)
    (hj : j < q.length) (hij : i < j) :
    FocusRequester.compare STREAM_TYPE_BIXBY q[i] q[j] = true :=
  List.pairwise_iff_getElem.mp (reachable_descending STREAM_TYPE_BIXBY q hq) i j hi hj hij

/-- Witness of C2 on the reachable list of streams 2 and 1. -/
theorem C2_descending_precedence_witness :
    Reachable 1 [⟨2, 4, some 20⟩, ⟨1, 0, some 10⟩] ∧
      FocusRequester.compare 1 ⟨2, 4, some 20⟩ ⟨1, 0, some 10⟩ = true :=
  ⟨reachable_two,
    C2_descending_precedence 1 [⟨2, 4, some 20⟩, ⟨1, 0, some 10⟩] reachable_two 0 1
      (by decide) (by decide) (by decide)⟩

/-- On a focus list with at most one holder per stream id, the code returned by a
request that is not null matches the position of the request's holder. -/
theorem returnMatchesPosition_of_uniqueIds (STREAM_TYPE_BIXBY : Int)
    (isTransientRequest : Bool) (q : List FocusRequester) (r : FocusRequest)
    (hq : UniqueIds q) :
    ∃ o, requestFocusBy STREAM_TYPE_BIXBY isTransientRequest q (some r) = some o ∧
      o.ret ≠ FOCUS_REQUEST_FAIL ∧ ReturnMatchesPosition o r := by
  rw [requestFocusBy_some]
  cases q with
  | nil =>
    refine ⟨_, rfl, by simp, Or.inl rfl, ?_, ?_⟩
    · simp [FrontHasId, FocusRequester.ofRequest]
    · simp [BehindFrontHasId]
  | cons f t =>
    unfold UniqueIds at hq
    rw [List.pairwise_cons] at hq
    by_cases hf : f.hasSameId r = true
    · have hid : f.mId = r.streamInfo.id := (hasSameId_iff f r).mp hf
      refine ⟨⟨FOCUS_REQUEST_SUCCESS, f :: t, []⟩, by simp [insertFocusElement, hf],
        by simp, Or.inl rfl, ?_, ?_⟩
      · simp [FrontHasId, hid]
      · simp only [BehindFrontHasId, List.tail_cons, reduceCtorEq, false_iff, not_exists,
          not_and]
        intro h hh e
        exact hq.1 h hh (hid.trans e.symm)
    · have hf' : f.hasSameId r = false := by simpa using hf
      have hid : f.mId ≠ r.streamInfo.id := (hasSameId_false_iff f r).mp hf'
      rw [insertFocusElement_cons_of_ne STREAM_TYPE_BIXBY f t r isTransientRequest hf']
      split_ifs with hc
      · refine ⟨_, rfl, by simp, Or.inl rfl, ?_, ?_⟩
        · simp [FrontHasId, FocusRequester.ofRequest]
        · simp only [BehindFrontHasId, List.tail_cons, reduceCtorEq, false_iff, not_exists,
            not_and]
          intro h hh e
          rcases List.mem_cons.mp hh with rfl | hh
          · exact hid e
          · exact ((mem_removeFocusElement t r h).mp hh).2 e
      · refine ⟨_, rfl, by simp, Or.inr rfl, ?_, ?_⟩
        · simp only [reduceCtorEq, FrontHasId, List.head?_cons, Option.some.injEq,
            exists_eq_left', false_iff]
          exact hid
        · simp only [BehindFrontHasId, List.tail_cons, true_iff]
          exact ⟨FocusRequester.ofRequest r, (mem_scanInsert _ _ _ _).mpr (Or.inl rfl), rfl⟩

/-- C3. Return code matches position: in every state of the focus list, that is
every list reachable from the empty one, with either transient flag, a request
that is not null returns `SUCCESS` or `DELAY`, never `FAIL`; it returns `SUCCESS`
exactly when the front of the resulting list has the request's id, and `DELAY`
exactly when a holder with the request's id sits behind the front of the
resulting list (position 1 or later). -/
theorem C3_return_code_matches_position (STREAM_TYPE_BIXBY : Int)
    (isTransientRequest : Bool) (q : List FocusRequester) (r : FocusRequest)
    (hq : Reachable STREAM_TYPE_BIXBY q) :
    ∃ o, requestFocusBy STREAM_TYPE_BIXBY isTransientRequest q (some r) = some o ∧
      o.ret ≠ FOCUS_REQUEST_FAIL ∧ ReturnMatchesPosition o r :=
  returnMatchesPosition_of_uniqueIds STREAM_TYPE_BIXBY isTransientRequest q r
    (reachable_uniqueIds STREAM_TYPE_BIXBY q hq)

/-- Witness of C3 on the reachable list of streams 2 and 1, for a plain request of
stream 3. -/
theorem C3_return_code_matches_position_witness :
    Reachable 1 [⟨2, 4, some 20⟩, ⟨1, 0, some 10⟩] ∧
    ∃ o, requestFocusBy 1 false [⟨2, 4, some 20⟩, ⟨1, 0, some 10⟩]
        (some ⟨⟨3, 2⟩, some 30⟩) = some o ∧
      o.ret ≠ FOCUS_REQUEST_FAIL ∧ ReturnMatchesPosition o ⟨⟨3, 2⟩, some 30⟩ :=
  ⟨reachable_two,
    C3_return_code_matches_position 1 false [⟨2, 4, some 20⟩, ⟨1, 0, some 10⟩]
      ⟨⟨3, 2⟩, some 30⟩ reachable_two⟩

/-- C4, counterexample. With `STREAM_TYPE_BIXBY = 1`, stream 1 of policy 4 (above
the assistant range) holds the focus, a state reached by one request on the empty
list.  A request for stream 2 of policy 1 (in the assistant range) returns
`DELAY` and is queued behind stream 1. -/
theorem C4_counterexample :
    Reachable 1 [⟨1, 4, some 10⟩] ∧
    requestFocus 1 [⟨1, 4, some 10⟩] (some ⟨⟨2, 1⟩, some 20⟩) =
      some ⟨FOCUS_REQUEST_DELAY, [⟨1, 4, some 10⟩, ⟨2, 1, some 20⟩], []⟩ :=
  ⟨Reachable.request [] (some ⟨⟨1, 4⟩, some 10⟩)
      ⟨FOCUS_REQUEST_SUCCESS, [⟨1, 4, some 10⟩], [(⟨1, 4, some 10⟩, FOCUS_GAIN)]⟩
      Reachable.init (by decide),
    by decide⟩

/-- C4, amended. For every focus list and every request that is not null and whose
policy is in the assistant range (at most `STREAM_TYPE_BIXBY`), `requestFocus`
returns `SUCCESS` exactly when the list is empty or its front holder has the
request's id or a policy in the assistant range, and then the front of the
resulting list has the request's id; in the remaining case, a front holder with
another id and a policy above the assistant range, it returns `DELAY` and that
holder stays at the front. -/
theorem C4_assistant_preemption (STREAM_TYPE_BIXBY : Int) (q : List FocusRequester)
    (r : FocusRequest) (hr : r.streamInfo.policy ≤ STREAM_TYPE_BIXBY) :
    ∃ o, requestFocus STREAM_TYPE_BIXBY q (some r) = some o ∧
      (o.ret = FOCUS_REQUEST_SUCCESS ↔
        ∀ f, q.head? = some f → f.mId = r.streamInfo.id ∨ f.mPolicy ≤ STREAM_TYPE_BIXBY) ∧
      (o.ret = FOCUS_REQUEST_SUCCESS → FrontHasId o.mFocusList r.streamInfo.id) ∧
      (o.ret ≠ FOCUS_REQUEST_SUCCESS →
        o.ret = FOCUS_REQUEST_DELAY ∧ o.mFocusList.head? = q.head?) := by
  show ∃ o, insertFocusElement STREAM_TYPE_BIXBY q r false = some o ∧ _
  cases q with
  | nil =>
    refine ⟨_, rfl, by simp, ?_, by simp⟩
    intro _
    simp [FrontHasId, FocusRequester.ofRequest]
  | cons f t =>
    by_cases hf : f.hasSameId r = true
    · have hid : f.mId = r.streamInfo.id := (hasSameId_iff f r).mp hf
      refine ⟨⟨FOCUS_REQUEST_SUCCESS, f :: t, []⟩, by simp [insertFocusElement, hf],
        by simp [hid], ?_, by simp⟩
      intro _
      simp [FrontHasId, hid]
    · have hf' : f.hasSameId r = false := by simpa using hf
      have hid : f.mId ≠ r.streamInfo.id := (hasSameId_false_iff f r).mp hf'
      rw [insertFocusElement_cons_of_ne STREAM_TYPE_BIXBY f t r false hf']
      split_ifs with hc
      · refine ⟨_, rfl, ?_, ?_, by simp⟩
        · simp only [List.head?_cons, Option.some.injEq, forall_eq', true_iff]
          rw [compare_true_iff] at hc
          right
          simp only [FocusRequester.ofRequest] at hc
          omega
        · intro _
          simp [FrontHasId, FocusRequester.ofRequest]
      · refine ⟨_, rfl, ?_, by simp, by simp⟩
        simp only [reduceCtorEq, List.head?_cons, Option.some.injEq, forall_eq', false_iff,
          not_or]
        refine ⟨hid, ?_⟩
        have hc' : FocusRequester.compare STREAM_TYPE_BIXBY (FocusRequester.ofRequest r) f
            = false := by simpa using hc
        rw [compare_false_iff] at hc'
        simp only [FocusRequester.ofRequest] at hc'
        omega

/-- Witness of C4: with `STREAM_TYPE_BIXBY = 1`, a request of policy 1 on a list
whose front has policy 0. -/
theorem C4_assistant_preemption_witness :
    (1 : Int) ≤ 1 ∧
    ∃ o, requestFocus 1 [⟨1, 0, some 10⟩] (some ⟨⟨2, 1⟩, some 20⟩) = some o ∧
      (o.ret = FOCUS_REQUEST_SUCCESS ↔
        ∀ f, [(⟨1, 0, some 10⟩ : FocusRequester)].head? = some f →
          f.mId = 2 ∨ f.mPolicy ≤ 1) ∧
      (o.ret = FOCUS_REQUEST_SUCCESS → FrontHasId o.mFocusList 2) ∧
      (o.ret ≠ FOCUS_REQUEST_SUCCESS →
        o.ret = FOCUS_REQUEST_DELAY ∧
          o.mFocusList.head? = [(⟨1, 0, some 10⟩ : FocusRequester)].head?) :=
  ⟨by decide,
    C4_assistant_preemption 1 [⟨1, 0, some 10⟩] ⟨⟨2, 1⟩, some 20⟩ (by decide)⟩

/-- C5. Idempotence on the front: on a non-empty focus list whose front holder has
the id of the request (not null), `requestFocus` and `requestFocusTransient`
return `SUCCESS`, leave the list as it is, the front holder with its stored policy
and listener included, and make no `notify` call. -/
theorem C5_front_request_idempotent (STREAM_TYPE_BIXBY : Int) (front : FocusRequester)
    (rest : List FocusRequester) (r : FocusRequest)
    (hid : front.mId = r.streamInfo.id) :
    requestFocus STREAM_TYPE_BIXBY (front :: rest) (some r) =
      some ⟨FOCUS_REQUEST_SUCCESS, front :: rest, []⟩ ∧
    requestFocusTransient STREAM_TYPE_BIXBY (front :: rest) (some r) =
      some ⟨FOCUS_REQUEST_SUCCESS, front :: rest, []⟩ := by
  have hf : front.hasSameId r = true := (hasSameId_iff front r).mpr hid
  constructor <;> simp [requestFocus, requestFocusTransient, insertFocusElement, hf]

/-- Witness of C5: stream 2 holds the focus with policy 4 and asks again with
policy 0 and another listener. -/
theorem C5_front_request_idempotent_witness :
    (2 : Nat) = 2 ∧
    requestFocus 1 [⟨2, 4, some 20⟩, ⟨1, 0, some 10⟩] (some ⟨⟨2, 0⟩, some 21⟩) =
      some ⟨FOCUS_REQUEST_SUCCESS, [⟨2, 4, some 20⟩, ⟨1, 0, some 10⟩], []⟩ ∧
    requestFocusTransient 1 [⟨2, 4, some 20⟩, ⟨1, 0, some 10⟩] (some ⟨⟨2, 0⟩, some 21⟩) =
      some ⟨FOCUS_REQUEST_SUCCESS, [⟨2, 4, some 20⟩, ⟨1, 0, some 10⟩], []⟩ :=
  ⟨rfl, C5_front_request_idempotent 1 ⟨2, 4, some 20⟩ [⟨1, 0, some 10⟩]
    ⟨⟨2, 0⟩, some 21⟩ rfl⟩

/-- C6. Preemption step: on a non-empty focus list whose front holder `front` has
another id than the request (not null) and is outranked by it
(`compare(R, front)` is true), `requestFocus` (transient flag `false`) and
`requestFocusTransient` (flag `true`) return `SUCCESS`; the resulting list is the
new holder of the request followed by the old list without the holders of the
request's id, so `front` is at position 1; and exactly two `notify` calls are
made, first the loss on `front`, then the gain on the new holder, both in the
transient variant exactly when the flag is set. -/
theorem C6_preemption_step (STREAM_TYPE_BIXBY : Int) (isTransientRequest : Bool)
    (front : FocusRequester) (rest : List FocusRequester) (r : FocusRequest)
    (hid : front.mId ≠ r.streamInfo.id)
    (hc : FocusRequester.compare STREAM_TYPE_BIXBY (FocusRequester.ofRequest r) front = true) :
    ∃ o, requestFocusBy STREAM_TYPE_BIXBY isTransientRequest (front :: rest) (some r) = some o ∧
      o.ret = FOCUS_REQUEST_SUCCESS ∧
      o.mFocusList = FocusRequester.ofRequest r ::
        (front :: rest).filter (fun h => decide (h.mId ≠ r.streamInfo.id)) ∧
      o.mFocusList[1]? = some front ∧
      o.notified =
        [(front, if isTransientRequest then FOCUS_LOSS_TRANSIENT else FOCUS_LOSS),
         (FocusRequester.ofRequest r,
          if isTransientRequest then FOCUS_GAIN_TRANSIENT else FOCUS_GAIN)] := by
  have hf : front.hasSameId r = false := (hasSameId_false_iff front r).mpr hid
  rw [requestFocusBy_some, insertFocusElement_cons_of_ne _ _ _ _ _ hf, if_pos hc]
  refine ⟨_, rfl, rfl, ?_, by simp, ?_⟩
  · show _ :: _ :: _ = _
    rw [filter_ne_eq_removeFocusElement, removeFocusElement_cons_of_ne _ _ _ hf]
  · cases isTransientRequest <;> rfl

/-- Witness of C6: with `STREAM_TYPE_BIXBY = 1`, stream 3 of policy 5 asks
transiently while stream 2 of policy 4 is at the front and a stale holder of
stream 3 is queued. -/
theorem C6_preemption_step_witness :
    (2 : Nat) ≠ 3 ∧
    FocusRequester.compare 1 (FocusRequester.ofRequest ⟨⟨3, 5⟩, some 30⟩) ⟨2, 4, some 20⟩ = true ∧
    ∃ o, requestFocusBy 1 true [⟨2, 4, some 20⟩, ⟨3, 0, none⟩, ⟨1, 0, some 10⟩]
        (some ⟨⟨3, 5⟩, some 30⟩) = some o ∧
      o.ret = FOCUS_REQUEST_SUCCESS ∧
      o.mFocusList = FocusRequester.ofRequest ⟨⟨3, 5⟩, some 30⟩ ::
        ([⟨2, 4, some 20⟩, ⟨3, 0, none⟩, ⟨1, 0, some 10⟩] : List FocusRequester).filter
          (fun h => decide (h.mId ≠ 3)) ∧
      o.mFocusList[1]? = some ⟨2, 4, some 20⟩ ∧
      o.notified =
        [(⟨2, 4, some 20⟩, if true then FOCUS_LOSS_TRANSIENT else FOCUS_LOSS),
         (FocusRequester.ofRequest ⟨⟨3, 5⟩, some 30⟩,
          if true then FOCUS_GAIN_TRANSIENT else FOCUS_GAIN)] :=
  ⟨by decide, by decide,
    C6_preemption_step 1 true ⟨2, 4, some 20⟩ [⟨3, 0, none⟩, ⟨1, 0, some 10⟩]
      ⟨⟨3, 5⟩, some 30⟩ (by decide) (by decide)⟩

/-- C7. Queued insertion step: on a non-empty focus list whose front holder
`front` has another id than the request (not null) and is not outranked by it
(`compare(R, front)` is false), `requestFocus` and `requestFocusTransient` return
`DELAY` and make no `notify` call.  The old list without the holders of the
request's id is `front :: pre ++ post` and the resulting list is
`front :: pre ++ R :: post`, where the request outranks no holder of `pre` and
outranks the first holder of `post`, if there is one: the new holder stands right
before the first holder behind the front that it outranks, and last when there is
none. -/
theorem C7_queued_insertion_step (STREAM_TYPE_BIXBY : Int) (isTransientRequest : Bool)
    (front : FocusRequester) (rest : List FocusRequester) (r : FocusRequest)
    (hid : front.mId ≠ r.streamInfo.id)
    (hc : FocusRequester.compare STREAM_TYPE_BIXBY (FocusRequester.ofRequest r) front = false) :
    ∃ pre post,
      (front :: rest).filter (fun h => decide (h.mId ≠ r.streamInfo.id)) =
        front :: (pre ++ post) ∧
      requestFocusBy STREAM_TYPE_BIXBY isTransientRequest (front :: rest) (some r) =
        some ⟨FOCUS_REQUEST_DELAY, front :: (pre ++ FocusRequester.ofRequest r :: post), []⟩ ∧
      (∀ h ∈ pre,
        FocusRequester.compare STREAM_TYPE_BIXBY (FocusRequester.ofRequest r) h = false) ∧
      (∀ h, post.head? = some h →
        FocusRequester.compare STREAM_TYPE_BIXBY (FocusRequester.ofRequest r) h = true) := by
  have hf : front.hasSameId r = false := (hasSameId_false_iff front r).mpr hid
  obtain ⟨pre, post, h1, h2, h3, h4⟩ :=
    scanInsert_split STREAM_TYPE_BIXBY (FocusRequester.ofRequest r) (removeFocusElement rest r)
  refine ⟨pre, post, ?_, ?_, h3, h4⟩
  · rw [filter_ne_eq_removeFocusElement, removeFocusElement_cons_of_ne _ _ _ hf, h1]
  · rw [requestFocusBy_some, insertFocusElement_cons_of_ne _ _ _ _ _ hf, hc, ← h2]
    simp

/-- Witness of C7: with `STREAM_TYPE_BIXBY = 1`, stream 4 of policy 3 asks while
stream 2 of policy 5 is at the front. -/
theorem C7_queued_insertion_step_witness :
    (2 : Nat) ≠ 4 ∧
    FocusRequester.compare 1 (FocusRequester.ofRequest ⟨⟨4, 3⟩, some 40⟩) ⟨2, 5, some 20⟩ = false ∧
    ∃ pre post,
      ([⟨2, 5, some 20⟩, ⟨3, 4, none⟩, ⟨1, 0, some 10⟩] : List FocusRequester).filter
          (fun h => decide (h.mId ≠ 4)) = ⟨2, 5, some 20⟩ :: (pre ++ post) ∧
      requestFocusBy 1 false [⟨2, 5, some 20⟩, ⟨3, 4, none⟩, ⟨1, 0, some 10⟩]
          (some ⟨⟨4, 3⟩, some 40⟩) =
        some ⟨FOCUS_REQUEST_DELAY,
          ⟨2, 5, some 20⟩ :: (pre ++ FocusRequester.ofRequest ⟨⟨4, 3⟩, some 40⟩ :: post), []⟩ ∧
      (∀ h ∈ pre,
        FocusRequester.compare 1 (FocusRequester.ofRequest ⟨⟨4, 3⟩, some 40⟩) h = false) ∧
      (∀ h, post.head? = some h →
        FocusRequester.compare 1 (FocusRequester.ofRequest ⟨⟨4, 3⟩, some 40⟩) h = true) :=
  ⟨by decide, by decide,
    C7_queued_insertion_step 1 false ⟨2, 5, some 20⟩ [⟨3, 4, none⟩, ⟨1, 0, some 10⟩]
      ⟨⟨4, 3⟩, some 40⟩ (by decide) (by decide)⟩

/-- C8, counterexample. A request that is not null and carries no listener, made
on the empty list, is admitted with `SUCCESS`; the one `notify` call made on its
holder finds no listener, so no notification reaches any sink. -/
theorem C8_counterexample :
    requestFocus 1 [] (some ⟨⟨1, 0⟩, none⟩) =
      some ⟨FOCUS_REQUEST_SUCCESS, [⟨1, 0, none⟩], [(⟨1, 0, none⟩, FOCUS_GAIN)]⟩ ∧
    delivered [(⟨1, 0, none⟩, FOCUS_GAIN)] = [] :=
  ⟨by decide, rfl⟩

/-- C8, amended. Admission on the empty list: for every request that is not null,
`requestFocus` (flag `false`) and `requestFocusTransient` (flag `true`) return
`SUCCESS`, the resulting list is exactly one holder with the id, policy and
listener of the request, exactly one `notify` call is made, the gain (transient
exactly when the flag is set) on that holder, which reaches the listener of the
request when it has one and nothing when the listener is null; and
`getCurrentStreamInfo` then returns the descriptor of the request. -/
theorem C8_admission_on_empty (STREAM_TYPE_BIXBY STREAM_TYPE_MEDIA : Int)
    (isTransientRequest : Bool) (r : FocusRequest) :
    ∃ o, requestFocusBy STREAM_TYPE_BIXBY isTransientRequest [] (some r) = some o ∧
      o.ret = FOCUS_REQUEST_SUCCESS ∧
      o.mFocusList = [⟨r.streamInfo.id, r.streamInfo.policy, r.listener⟩] ∧
      o.notified = [(⟨r.streamInfo.id, r.streamInfo.policy, r.listener⟩,
        if isTransientRequest then FOCUS_GAIN_TRANSIENT else FOCUS_GAIN)] ∧
      delivered o.notified =
        (match r.listener with
         | some l => [(l, if isTransientRequest then FOCUS_GAIN_TRANSIENT else FOCUS_GAIN)]
         | none => []) ∧
      getCurrentStreamInfo STREAM_TYPE_MEDIA o.mFocusList = r.streamInfo := by
  rw [requestFocusBy_some]
  refine ⟨_, rfl, rfl, rfl, ?_, ?_, rfl⟩
  · cases isTransientRequest <;> rfl
  · cases hl : r.listener <;> cases isTransientRequest <;>
      simp [delivered, FocusRequester.ofRequest, gainEvent, hl]

/-- C9. Non-assistant ordering: in every reachable focus list, when the holder at
position `i` has a policy above the assistant range and the holder at position `j`
a larger one, `j` is before `i`; and for two requests of different ids with such
policies `t1 < t2`, made one after the other on the empty list with any transient
flags, the resulting list is the `t2` holder followed by the `t1` holder, in
either arrival order. -/
theorem C9_non_assistant_ordering (STREAM_TYPE_BIXBY : Int) :
    (∀ (q : List FocusRequester), Reachable STREAM_TYPE_BIXBY q →
      ∀ (i j : Nat) (hi : i < q.length) (hj : j < q.length),
        STREAM_TYPE_BIXBY < q[i].mPolicy → q[i].mPolicy < q[j].mPolicy → j < i) ∧
    (∀ (r1 r2 : FocusRequest) (a b : Bool),
      r1.streamInfo.id ≠ r2.streamInfo.id →
      STREAM_TYPE_BIXBY < r1.streamInfo.policy →
      r1.streamInfo.policy < r2.streamInfo.policy →
      (∃ o1 o2, requestFocusBy STREAM_TYPE_BIXBY a [] (some r1) = some o1 ∧
        requestFocusBy STREAM_TYPE_BIXBY b o1.mFocusList (some r2) = some o2 ∧
        o2.mFocusList = [FocusRequester.ofRequest r2, FocusRequester.ofRequest r1]) ∧
      (∃ o1 o2, requestFocusBy STREAM_TYPE_BIXBY a [] (some r2) = some o1 ∧
        requestFocusBy STREAM_TYPE_BIXBY b o1.mFocusList (some r1) = some o2 ∧
        o2.mFocusList = [FocusRequester.ofRequest r2, FocusRequester.ofRequest r1])) := by
  constructor
  · intro q hq i j hi hj hB hlt
    by_contra hji
    have hne : i ≠ j := by
      rintro rfl
      exact lt_irrefl _ hlt
    have hij : i < j := by omega
    have hc := List.pairwise_iff_getElem.mp (reachable_descending STREAM_TYPE_BIXBY q hq)
      i j hi hj hij
    rw [compare_true_iff] at hc
    omega
  · intro r1 r2 a b hne hB hlt
    have h12 : (FocusRequester.ofRequest r1).hasSameId r2 = false :=
      (hasSameId_false_iff _ _).mpr hne
    have h21 : (FocusRequester.ofRequest r2).hasSameId r1 = false :=
      (hasSameId_false_iff _ _).mpr (Ne.symm hne)
    have hc21 : FocusRequester.compare STREAM_TYPE_BIXBY (FocusRequester.ofRequest r2)
        (FocusRequester.ofRequest r1) = true := by
      rw [compare_true_iff]
      simp only [FocusRequester.ofRequest]
      omega
    have hc12 : FocusRequester.compare STREAM_TYPE_BIXBY (FocusRequester.ofRequest r1)
        (FocusRequester.ofRequest r2) = false := by
      rw [compare_false_iff]
      simp only [FocusRequester.ofRequest]
      omega
    constructor
    · refine ⟨⟨FOCUS_REQUEST_SUCCESS, [FocusRequester.ofRequest r1],
          [(FocusRequester.ofRequest r1, gainEvent a)]⟩,
        ⟨FOCUS_REQUEST_SUCCESS, [FocusRequester.ofRequest r2, FocusRequester.ofRequest r1],
          [(FocusRequester.ofRequest r1, lossEvent b),
           (FocusRequester.ofRequest r2, gainEvent b)]⟩,
        by rw [requestFocusBy_some]; rfl, ?_, rfl⟩
      rw [requestFocusBy_some, insertFocusElement_cons_of_ne _ _ _ _ _ h12, if_pos hc21]
      rfl
    · refine ⟨⟨FOCUS_REQUEST_SUCCESS, [FocusRequester.ofRequest r2],
          [(FocusRequester.ofRequest r2, gainEvent a)]⟩,
        ⟨FOCUS_REQUEST_DELAY, [FocusRequester.ofRequest r2, FocusRequester.ofRequest r1], []⟩,
        by rw [requestFocusBy_some]; rfl, ?_, rfl⟩
      rw [requestFocusBy_some, insertFocusElement_cons_of_ne _ _ _ _ _ h21, hc12]
      rfl

/-- Witness of C9: with `STREAM_TYPE_BIXBY = 1`, the reachable list of stream 2
(policy 4) and stream 1 (policy 2), and the two requests made in both orders. -/
theorem C9_non_assistant_ordering_witness :
    Reachable 1 [⟨2, 4, some 20⟩, ⟨1, 2, some 10⟩] ∧ (0 : Nat) < 1 ∧
    ((∃ o1 o2, requestFocusBy 1 false [] (some ⟨⟨1, 2⟩, some 10⟩) = some o1 ∧
        requestFocusBy 1 true o1.mFocusList (some ⟨⟨2, 4⟩, some 20⟩) = some o2 ∧
        o2.mFocusList = [FocusRequester.ofRequest ⟨⟨2, 4⟩, some 20⟩,
          FocusRequester.ofRequest ⟨⟨1, 2⟩, some 10⟩]) ∧
      (∃ o1 o2, requestFocusBy 1 false [] (some ⟨⟨2, 4⟩, some 20⟩) = some o1 ∧
        requestFocusBy 1 true o1.mFocusList (some ⟨⟨1, 2⟩, some 10⟩) = some o2 ∧
        o2.mFocusList = [FocusRequester.ofRequest ⟨⟨2, 4⟩, some 20⟩,
          FocusRequester.ofRequest ⟨⟨1, 2⟩, some 10⟩])) :=
  ⟨reachable_pair,
    (C9_non_assistant_ordering 1).1 [⟨2, 4, some 20⟩, ⟨1, 2, some 10⟩] reachable_pair 1 0
      (by decide) (by decide) (by decide) (by decide),
    (C9_non_assistant_ordering 1).2 ⟨⟨1, 2⟩, some 10⟩ ⟨⟨2, 4⟩, some 20⟩ false true
      (by decide) (by decide) (by decide)⟩

/-- C10. Tie-break recency: on every focus list, for every request that is not
null and whose id is not the id of the front holder, with either transient flag,
the resulting list holds the new holder of the request at a position `k`; every
holder at another position has another id, and when it is tied with the request
(both policies in the assistant range, or the same policy above it) its position
is later than `k`. -/
theorem C10_tie_break_recency (STREAM_TYPE_BIXBY : Int) (isTransientRequest : Bool)
    (q : List FocusRequester) (r : FocusRequest)
    (hfront : ∀ f, q.head? = some f → f.mId ≠ r.streamInfo.id) :
    ∃ o k, requestFocusBy STREAM_TYPE_BIXBY isTransientRequest q (some r) = some o ∧
      o.mFocusList[k]? = some (FocusRequester.ofRequest r) ∧
      ∀ (i : Nat) (h : FocusRequester), o.mFocusList[i]? = some h → i ≠ k →
        h.mId ≠ r.streamInfo.id ∧
        (Tied STREAM_TYPE_BIXBY h (FocusRequester.ofRequest r) → k < i) := by
  obtain ⟨o, pre, post, ho, hl, hpre, hids⟩ :=
    insertFocusElement_split STREAM_TYPE_BIXBY q r isTransientRequest hfront
  refine ⟨o, pre.length, by rw [requestFocusBy_some]; exact ho, ?_, ?_⟩
  · rw [hl, List.getElem?_append_right (le_refl _)]
    simp
  · intro i h hi hik
    rw [hl] at hi
    rcases Nat.lt_or_gt_of_ne hik with hlt | hgt
    · rw [List.getElem?_append_left hlt] at hi
      have hmem : h ∈ pre := List.getElem?_mem hi
      exact ⟨hids h (List.mem_append_left _ hmem), fun ht => absurd ht (hpre h hmem)⟩
    · refine ⟨?_, fun _ => hgt⟩
      rw [List.getElem?_append_right (le_of_lt hgt)] at hi
      obtain ⟨n, hn⟩ : ∃ n, i - pre.length = n + 1 := ⟨i - pre.length - 1, by omega⟩
      rw [hn, List.getElem?_cons_succ] at hi
      exact hids h (List.mem_append_right _ (List.getElem?_mem hi))

/-- Witness of C10: with `STREAM_TYPE_BIXBY = 1`, stream 3 of policy 1 asks while
stream 2 (policy 4) is at the front and stream 1 (policy 0, tied with the request)
is queued. -/
theorem C10_tie_break_recency_witness :
    (∀ f, ([⟨2, 4, some 20⟩, ⟨1, 0, some 10⟩] : List FocusRequester).head? = some f →
      f.mId ≠ 3) ∧
    ∃ o k, requestFocusBy 1 false [⟨2, 4, some 20⟩, ⟨1, 0, some 10⟩]
        (some ⟨⟨3, 1⟩, some 30⟩) = some o ∧
      o.mFocusList[k]? = some (FocusRequester.ofRequest ⟨⟨3, 1⟩, some 30⟩) ∧
      ∀ (i : Nat) (h : FocusRequester), o.mFocusList[i]? = some h → i ≠ k →
        h.mId ≠ 3 ∧
        (Tied 1 h (FocusRequester.ofRequest ⟨⟨3, 1⟩, some 30⟩) → k < i) :=
  ⟨by simp,
    C10_tie_break_recency 1 false [⟨2, 4, some 20⟩, ⟨1, 0, some 10⟩] ⟨⟨3, 1⟩, some 30⟩
      (by simp)⟩

/-! ## Further auxiliary facts -/

theorem insertFocusElement_defined (B : Int) (q : List FocusRequester) (r : FocusRequest)
    (tr : Bool) : ∃ o, insertFocusElement B q r tr = some o := by
  cases q with
  | nil => exact ⟨_, rfl⟩
  | cons f t =>
    by_cases hf : f.hasSameId r = true
    · exact ⟨⟨FOCUS_REQUEST_SUCCESS, f :: t, []⟩, by simp [insertFocusElement, hf]⟩
    · have hf' : f.hasSameId r = false := by simpa using hf
      rw [insertFocusElement_cons_of_ne B f t r tr hf']
      split_ifs
      · exact ⟨_, rfl⟩
      · exact ⟨_, rfl⟩

theorem removeFocusElement_idem (q : List FocusRequester) (r : FocusRequest) :
    removeFocusElement (removeFocusElement q r) r = removeFocusElement q r := by
  simp [removeFocusElement_eq_filter, List.filter_filter]

theorem removeFocusElement_scanInsert (B : Int) (r : FocusRequest)
    (l : List FocusRequester) :
    removeFocusElement (scanInsert B (FocusRequester.ofRequest r) l) r =
      removeFocusElement l r := by
  have hself : (FocusRequester.ofRequest r).hasSameId r = true := by
    simp [FocusRequester.hasSameId, FocusRequester.ofRequest]
  induction l with
  | nil => simp [scanInsert, removeFocusElement, hself]
  | cons x t ih =>
    unfold scanInsert
    split_ifs with hc
    · show removeFocusElement (_ :: _) r = _
      rw [removeFocusElement, if_pos hself]
    · by_cases hx : x.hasSameId r = true
      · simp [removeFocusElement, hx, ih]
      · simp [removeFocusElement, hx, ih]

theorem removeFocusElement_eq_self (q : List FocusRequester) (r : FocusRequest)
    (hq : ∀ h ∈ q, h.mId ≠ r.streamInfo.id) : removeFocusElement q r = q := by
  rw [removeFocusElement_eq_filter, List.filter_eq_self]
  intro h hh
  simpa [FocusRequester.hasSameId] using hq h hh

/-! ## The claims, continued -/

/-- C11. Promotion on release: on a reachable focus list whose front holder has
the id of the request (not null), `abandonFocus` returns `SUCCESS`, the resulting
list is the old list without its front and holds no holder with the request's id,
and the `notify` calls made are exactly one `FOCUS_GAIN` on the new front holder
when the resulting list is not empty, and none when it is empty. -/
theorem C11_promotion_on_release (STREAM_TYPE_BIXBY : Int) (front : FocusRequester)
    (rest : List FocusRequester) (r : FocusRequest)
    (hq : Reachable STREAM_TYPE_BIXBY (front :: rest))
    (hid : front.mId = r.streamInfo.id) :
    (abandonFocus (front :: rest) (some r)).ret = FOCUS_REQUEST_SUCCESS ∧
    (abandonFocus (front :: rest) (some r)).mFocusList = rest ∧
    (∀ h ∈ rest, h.mId ≠ r.streamInfo.id) ∧
    (abandonFocus (front :: rest) (some r)).notified =
      (match rest with
       | [] => []
       | next :: _ => [(next, FOCUS_GAIN)]) := by
  have hf : front.hasSameId r = true := (hasSameId_iff front r).mpr hid
  have hu := reachable_uniqueIds STREAM_TYPE_BIXBY _ hq
  unfold UniqueIds at hu
  rw [List.pairwise_cons] at hu
  have hno : ∀ h ∈ rest, h.mId ≠ r.streamInfo.id :=
    fun h hh e => hu.1 h hh (hid.trans e.symm)
  cases rest with
  | nil => simp [abandonFocus, hf]
  | cons g u => exact ⟨by simp [abandonFocus, hf], by simp [abandonFocus, hf], hno,
      by simp [abandonFocus, hf]⟩

/-- Witness of C11: stream 2 abandons while it is at the front of the reachable
list of streams 2 and 1. -/
theorem C11_promotion_on_release_witness :
    Reachable 1 [⟨2, 4, some 20⟩, ⟨1, 0, some 10⟩] ∧ (2 : Nat) = 2 ∧
    (abandonFocus [⟨2, 4, some 20⟩, ⟨1, 0, some 10⟩] (some ⟨⟨2, 4⟩, some 20⟩)).ret
      = FOCUS_REQUEST_SUCCESS ∧
    (abandonFocus [⟨2, 4, some 20⟩, ⟨1, 0, some 10⟩] (some ⟨⟨2, 4⟩, some 20⟩)).mFocusList
      = [⟨1, 0, some 10⟩] ∧
    (∀ h ∈ ([⟨1, 0, some 10⟩] : List FocusRequester), h.mId ≠ 2) ∧
    (abandonFocus [⟨2, 4, some 20⟩, ⟨1, 0, some 10⟩] (some ⟨⟨2, 4⟩, some 20⟩)).notified
      = [(⟨1, 0, some 10⟩, FOCUS_GAIN)] :=
  ⟨reachable_two, rfl,
    C11_promotion_on_release 1 ⟨2, 4, some 20⟩ [⟨1, 0, some 10⟩] ⟨⟨2, 4⟩, some 20⟩
      reachable_two rfl⟩

/-- C12. Abandoning an id that is not at the front: on a focus list that is empty
or whose front holder has another id than the request (not null), `abandonFocus`
returns `SUCCESS`, makes no `notify` call, and the resulting list is the old list
without the holders of the request's id, the others in their order; the front is
the same, and when no holder has the request's id the list is unchanged. -/
theorem C12_abandon_non_front (q : List FocusRequester) (r : FocusRequest)
    (hfront : ∀ f, q.head? = some f → f.mId ≠ r.streamInfo.id) :
    abandonFocus q (some r) =
      ⟨FOCUS_REQUEST_SUCCESS, q.filter (fun h => decide (h.mId ≠ r.streamInfo.id)), []⟩ ∧
    (abandonFocus q (some r)).mFocusList.head? = q.head? ∧
    ((∀ h ∈ q, h.mId ≠ r.streamInfo.id) → (abandonFocus q (some r)).mFocusList = q) := by
  have hab : abandonFocus q (some r) = ⟨FOCUS_REQUEST_SUCCESS, removeFocusElement q r, []⟩ := by
    cases q with
    | nil => rfl
    | cons f t =>
      have hf : f.hasSameId r = false := (hasSameId_false_iff f r).mpr (hfront f rfl)
      simp [abandonFocus, hf]
  refine ⟨by rw [hab, filter_ne_eq_removeFocusElement], ?_, ?_⟩
  · rw [hab]
    cases q with
    | nil => rfl
    | cons f t =>
      have hf : f.hasSameId r = false := (hasSameId_false_iff f r).mpr (hfront f rfl)
      show (removeFocusElement (f :: t) r).head? = _
      rw [removeFocusElement_cons_of_ne f t r hf]
      rfl
  · intro hall
    rw [hab]
    exact removeFocusElement_eq_self q r hall

/-- Witness of C12: stream 1, queued behind stream 2, abandons. -/
theorem C12_abandon_non_front_witness :
    (∀ f, ([⟨2, 4, some 20⟩, ⟨1, 0, some 10⟩] : List FocusRequester).head? = some f →
      f.mId ≠ 1) ∧
    abandonFocus [⟨2, 4, some 20⟩, ⟨1, 0, some 10⟩] (some ⟨⟨1, 0⟩, some 10⟩) =
      ⟨FOCUS_REQUEST_SUCCESS,
        ([⟨2, 4, some 20⟩, ⟨1, 0, some 10⟩] : List FocusRequester).filter
          (fun h => decide (h.mId ≠ 1)), []⟩ ∧
    (abandonFocus [⟨2, 4, some 20⟩, ⟨1, 0, some 10⟩]
        (some ⟨⟨1, 0⟩, some 10⟩)).mFocusList.head? =
      ([⟨2, 4, some 20⟩, ⟨1, 0, some 10⟩] : List FocusRequester).head? ∧
    ((∀ h ∈ ([⟨2, 4, some 20⟩, ⟨1, 0, some 10⟩] : List FocusRequester), h.mId ≠ 1) →
      (abandonFocus [⟨2, 4, some 20⟩, ⟨1, 0, some 10⟩]
        (some ⟨⟨1, 0⟩, some 10⟩)).mFocusList = [⟨2, 4, some 20⟩, ⟨1, 0, some 10⟩]) :=
  ⟨by simp,
    C12_abandon_non_front [⟨2, 4, some 20⟩, ⟨1, 0, some 10⟩] ⟨⟨1, 0⟩, some 10⟩ (by simp)⟩

/-- C13. A null request is rejected atomically: on every focus list,
`requestFocus`, `requestFocusTransient` and `abandonFocus` called with a null
request return `FAIL`, leave the list as it is and make no `notify` call. -/
theorem C13_null_request_rejected (STREAM_TYPE_BIXBY : Int) (q : List FocusRequester) :
    requestFocus STREAM_TYPE_BIXBY q none = some ⟨FOCUS_REQUEST_FAIL, q, []⟩ ∧
    requestFocusTransient STREAM_TYPE_BIXBY q none = some ⟨FOCUS_REQUEST_FAIL, q, []⟩ ∧
    abandonFocus q none = ⟨FOCUS_REQUEST_FAIL, q, []⟩ :=
  ⟨rfl, rfl, rfl⟩

/-- C14, counterexample. With `STREAM_TYPE_BIXBY = 1`, stream 2 of policy 0 holds
the focus; a request for stream 5 of policy 4 that carries no listener returns
`SUCCESS`, takes the front, and stream 2 is told of the loss. -/
theorem C14_counterexample :
    requestFocus 1 [⟨2, 0, some 20⟩] (some ⟨⟨5, 4⟩, none⟩) =
      some ⟨FOCUS_REQUEST_SUCCESS, [⟨5, 4, none⟩, ⟨2, 0, some 20⟩],
        [(⟨2, 0, some 20⟩, FOCUS_LOSS), (⟨5, 4, none⟩, FOCUS_GAIN)]⟩ := by
  decide

/-- C14, amended. A request without a listener is not rejected: on every focus
list, for every request that is not null and whose listener is null,
`requestFocus` returns `SUCCESS` or `DELAY`, never `FAIL`, the same code as for
the same descriptor with any listener; when the front holder already has the
request's id the list is unchanged, and otherwise the resulting list holds a new
holder with the request's id and policy and a null listener. -/
theorem C14_request_without_listener (STREAM_TYPE_BIXBY : Int) (q : List FocusRequester)
    (r : FocusRequest) (hl : r.listener = none) :
    ∃ o, requestFocus STREAM_TYPE_BIXBY q (some r) = some o ∧
      (o.ret = FOCUS_REQUEST_SUCCESS ∨ o.ret = FOCUS_REQUEST_DELAY) ∧
      (∀ l, ∃ o', requestFocus STREAM_TYPE_BIXBY q (some ⟨r.streamInfo, some l⟩) = some o' ∧
        o'.ret = o.ret) ∧
      (FrontHasId q r.streamInfo.id → o.mFocusList = q ∧ o.notified = []) ∧
      (¬ FrontHasId q r.streamInfo.id →
        (⟨r.streamInfo.id, r.streamInfo.policy, none⟩ : FocusRequester) ∈ o.mFocusList) := by
  have hR : FocusRequester.ofRequest r = ⟨r.streamInfo.id, r.streamInfo.policy, none⟩ := by
    simp [FocusRequester.ofRequest, hl]
  show ∃ o, insertFocusElement STREAM_TYPE_BIXBY q r false = some o ∧ _
  cases q with
  | nil =>
    refine ⟨_, rfl, Or.inl rfl, fun l => ⟨_, rfl, rfl⟩, ?_, ?_⟩
    · intro hfr
      simp [FrontHasId] at hfr
    · intro _
      show _ ∈ [FocusRequester.ofRequest r]
      rw [hR]
      exact List.mem_singleton.mpr rfl
  | cons f t =>
    by_cases hf : f.hasSameId r = true
    · have hid : f.mId = r.streamInfo.id := (hasSameId_iff f r).mp hf
      refine ⟨⟨FOCUS_REQUEST_SUCCESS, f :: t, []⟩, by simp [insertFocusElement, hf],
        Or.inl rfl, ?_, fun _ => ⟨rfl, rfl⟩, ?_⟩
      · intro l
        have hf2 : f.hasSameId ⟨r.streamInfo, some l⟩ = true := hf
        exact ⟨⟨FOCUS_REQUEST_SUCCESS, f :: t, []⟩,
          by simp [requestFocus, insertFocusElement, hf2], rfl⟩
      · intro hn
        exact absurd ⟨f, rfl, hid⟩ hn
    · have hf' : f.hasSameId r = false := by simpa using hf
      have hid : f.mId ≠ r.streamInfo.id := (hasSameId_false_iff f r).mp hf'
      have hnf : ¬ FrontHasId (f :: t) r.streamInfo.id := by
        rintro ⟨g, hg, hgid⟩
        simp only [List.head?_cons, Option.some.injEq] at hg
        subst hg
        exact hid hgid
      rw [insertFocusElement_cons_of_ne STREAM_TYPE_BIXBY f t r false hf']
      by_cases hc : FocusRequester.compare STREAM_TYPE_BIXBY (FocusRequester.ofRequest r) f = true
      · rw [if_pos hc]
        refine ⟨_, rfl, Or.inl rfl, ?_, fun h => absurd h hnf, ?_⟩
        · intro l
          have hf2 : f.hasSameId ⟨r.streamInfo, some l⟩ = false := hf'
          have hc2 : FocusRequester.compare STREAM_TYPE_BIXBY
              (FocusRequester.ofRequest ⟨r.streamInfo, some l⟩) f = true := hc
          have h2 := insertFocusElement_cons_of_ne STREAM_TYPE_BIXBY f t
            ⟨r.streamInfo, some l⟩ false hf2
          rw [if_pos hc2] at h2
          exact ⟨_, h2, rfl⟩
        · intro _
          rw [← hR]
          exact List.mem_cons_self _ _
      · rw [if_neg hc]
        refine ⟨_, rfl, Or.inr rfl, ?_, fun h => absurd h hnf, ?_⟩
        · intro l
          have hf2 : f.hasSameId ⟨r.streamInfo, some l⟩ = false := hf'
          have hc2 : ¬ FocusRequester.compare STREAM_TYPE_BIXBY
              (FocusRequester.ofRequest ⟨r.streamInfo, some l⟩) f = true := hc
          have h2 := insertFocusElement_cons_of_ne STREAM_TYPE_BIXBY f t
            ⟨r.streamInfo, some l⟩ false hf2
          rw [if_neg hc2] at h2
          exact ⟨_, h2, rfl⟩
        · intro _
          rw [← hR]
          exact List.mem_cons_of_mem _ ((mem_scanInsert _ _ _ _).mpr (Or.inl rfl))

/-- Witness of C14: with `STREAM_TYPE_BIXBY = 1`, a request without a listener for
stream 5 of policy 0 while stream 2 of policy 4 is at the front. -/
theorem C14_request_without_listener_witness :
    (none : Option Nat) = none ∧
    ∃ o, requestFocus 1 [⟨2, 4, some 20⟩] (some ⟨⟨5, 0⟩, none⟩) = some o ∧
      (o.ret = FOCUS_REQUEST_SUCCESS ∨ o.ret = FOCUS_REQUEST_DELAY) ∧
      (∀ l, ∃ o', requestFocus 1 [⟨2, 4, some 20⟩] (some ⟨⟨5, 0⟩, some l⟩) = some o' ∧
        o'.ret = o.ret) ∧
      (FrontHasId [⟨2, 4, some 20⟩] 5 → o.mFocusList = [⟨2, 4, some 20⟩] ∧ o.notified = []) ∧
      (¬ FrontHasId [⟨2, 4, some 20⟩] 5 →
        (⟨5, 0, none⟩ : FocusRequester) ∈ o.mFocusList) :=
  ⟨rfl, C14_request_without_listener 1 [⟨2, 4, some 20⟩] ⟨⟨5, 0⟩, none⟩ rfl⟩

/-- C15. Current stream query: `getCurrentStreamInfo` only reads the focus list
(it is a function of the list and returns no new one); on a list that is not
empty it returns the id and policy stored in the front holder, on the empty list
the descriptor with id 0 and policy `STREAM_TYPE_MEDIA`. -/
theorem C15_current_stream_query (STREAM_TYPE_MEDIA : Int) :
    getCurrentStreamInfo STREAM_TYPE_MEDIA [] = ⟨0, STREAM_TYPE_MEDIA⟩ ∧
    ∀ (front : FocusRequester) (rest : List FocusRequester),
      getCurrentStreamInfo STREAM_TYPE_MEDIA (front :: rest) = ⟨front.mId, front.mPolicy⟩ :=
  ⟨rfl, fun _ _ => rfl⟩

/-- C16. The transient flag does not influence arbitration: on every focus list,
for every request that is not null, `requestFocus` and `requestFocusTransient`
both return, with the same code and the same resulting list; `requestFocus`
passes only `FOCUS_GAIN` and `FOCUS_LOSS`, and `requestFocusTransient` makes the
same `notify` calls on the same holders in the same order with each event
replaced by its transient variant. -/
theorem C16_transient_flag_only_changes_events (STREAM_TYPE_BIXBY : Int)
    (q : List FocusRequester) (r : FocusRequest) :
    ∃ o o', requestFocus STREAM_TYPE_BIXBY q (some r) = some o ∧
      requestFocusTransient STREAM_TYPE_BIXBY q (some r) = some o' ∧
      o'.ret = o.ret ∧ o'.mFocusList = o.mFocusList ∧
      (∀ n ∈ o.notified, n.2 = FOCUS_GAIN ∨ n.2 = FOCUS_LOSS) ∧
      o'.notified = o.notified.map (fun n => (n.1, n.2.toTransient)) := by
  show ∃ o o', insertFocusElement STREAM_TYPE_BIXBY q r false = some o ∧
    insertFocusElement STREAM_TYPE_BIXBY q r true = some o' ∧ _
  cases q with
  | nil => exact ⟨_, _, rfl, rfl, rfl, rfl, by simp [gainEvent], rfl⟩
  | cons f t =>
    by_cases hf : f.hasSameId r = true
    · exact ⟨⟨FOCUS_REQUEST_SUCCESS, f :: t, []⟩, ⟨FOCUS_REQUEST_SUCCESS, f :: t, []⟩,
        by simp [insertFocusElement, hf], by simp [insertFocusElement, hf], rfl, rfl,
        by simp, rfl⟩
    · have hf' : f.hasSameId r = false := by simpa using hf
      rw [insertFocusElement_cons_of_ne STREAM_TYPE_BIXBY f t r false hf',
        insertFocusElement_cons_of_ne STREAM_TYPE_BIXBY f t r true hf']
      split_ifs with hc
      · exact ⟨_, _, rfl, rfl, rfl, rfl, by simp [gainEvent, lossEvent], rfl⟩
      · exact ⟨_, _, rfl, rfl, rfl, rfl, by simp, rfl⟩

/-- C17. `FocusRequester::compare` is a total preorder on holders, for every
threshold and all policies on either side of it: it relates every holder to
itself, it relates any two holders in at least one direction, and it is
transitive. -/
theorem C17_compare_total_preorder (STREAM_TYPE_BIXBY : Int) :
    (∀ a, FocusRequester.compare STREAM_TYPE_BIXBY a a = true) ∧
    (∀ a b, FocusRequester.compare STREAM_TYPE_BIXBY a b = true ∨
      FocusRequester.compare STREAM_TYPE_BIXBY b a = true) ∧
    (∀ a b c, FocusRequester.compare STREAM_TYPE_BIXBY a b = true →
      FocusRequester.compare STREAM_TYPE_BIXBY b c = true →
      FocusRequester.compare STREAM_TYPE_BIXBY a c = true) := by
  refine ⟨?_, ?_, ?_⟩
  · intro a
    rw [compare_true_iff]
    omega
  · intro a b
    rw [compare_true_iff, compare_true_iff]
    omega
  · intro a b c
    exact compare_trans STREAM_TYPE_BIXBY a b c

/-- Witness of C17: with `STREAM_TYPE_BIXBY = 1`, transitivity on policies 4, 0
and 1, which lie on both sides of the threshold. -/
theorem C17_compare_total_preorder_witness :
    FocusRequester.compare 1 ⟨1, 4, none⟩ ⟨2, 0, none⟩ = true ∧
    FocusRequester.compare 1 ⟨2, 0, none⟩ ⟨3, 1, none⟩ = true ∧
    FocusRequester.compare 1 ⟨1, 4, none⟩ ⟨3, 1, none⟩ = true :=
  ⟨by decide, by decide,
    (C17_compare_total_preorder 1).2.2 ⟨1, 4, none⟩ ⟨2, 0, none⟩ ⟨3, 1, none⟩
      (by decide) (by decide)⟩

/-- C18. A request touches only the requester's own entry: on every focus list,
for every request that is not null and either transient flag, the resulting list
without the holders of the request's id is the old list without the holders of
the request's id. -/
theorem C18_request_frame (STREAM_TYPE_BIXBY : Int) (isTransientRequest : Bool)
    (q : List FocusRequester) (r : FocusRequest) :
    ∃ o, requestFocusBy STREAM_TYPE_BIXBY isTransientRequest q (some r) = some o ∧
      o.mFocusList.filter (fun h => decide (h.mId ≠ r.streamInfo.id)) =
        q.filter (fun h => decide (h.mId ≠ r.streamInfo.id)) := by
  have hself : (FocusRequester.ofRequest r).hasSameId r = true := by
    simp [FocusRequester.hasSameId, FocusRequester.ofRequest]
  rw [requestFocusBy_some]
  simp only [filter_ne_eq_removeFocusElement]
  cases q with
  | nil =>
    refine ⟨_, rfl, ?_⟩
    show removeFocusElement [FocusRequester.ofRequest r] r = _
    simp [removeFocusElement, hself]
  | cons f t =>
    by_cases hf : f.hasSameId r = true
    · exact ⟨⟨FOCUS_REQUEST_SUCCESS, f :: t, []⟩, by simp [insertFocusElement, hf], rfl⟩
    · have hf' : f.hasSameId r = false := by simpa using hf
      rw [insertFocusElement_cons_of_ne STREAM_TYPE_BIXBY f t r isTransientRequest hf']
      split_ifs with hc
      · refine ⟨_, rfl, ?_⟩
        show removeFocusElement (_ :: _ :: _) r = _
        rw [removeFocusElement, if_pos hself, removeFocusElement_cons_of_ne _ _ _ hf',
          removeFocusElement_cons_of_ne _ _ _ hf', removeFocusElement_idem]
      · refine ⟨_, rfl, ?_⟩
        show removeFocusElement (_ :: _) r = _
        rw [removeFocusElement_cons_of_ne _ _ _ hf', removeFocusElement_cons_of_ne _ _ _ hf',
          removeFocusElement_scanInsert, removeFocusElement_idem]

/-- C19. The front read after the purge is defined: when `insertFocusElement`
gets past the test on the front (the list is not empty and its front holder has
another id than the request), the list after `removeFocusElement` is not empty
and has the same front holder, and `insertFocusElement` returns an outcome, with
either transient flag. -/
theorem C19_front_defined_after_purge (STREAM_TYPE_BIXBY : Int) (isTransientRequest : Bool)
    (front : FocusRequester) (rest : List FocusRequester) (r : FocusRequest)
    (hid : front.mId ≠ r.streamInfo.id) :
    removeFocusElement (front :: rest) r ≠ [] ∧
    (removeFocusElement (front :: rest) r).head? = some front ∧
    ∃ o, insertFocusElement STREAM_TYPE_BIXBY (front :: rest) r isTransientRequest = some o := by
  have hf : front.hasSameId r = false := (hasSameId_false_iff front r).mpr hid
  rw [removeFocusElement_cons_of_ne front rest r hf]
  exact ⟨by simp, rfl, insertFocusElement_defined _ _ _ _⟩

/-- Witness of C19: stream 3 asks while stream 2 is at the front and a stale
holder of stream 3 is the only other entry. -/
theorem C19_front_defined_after_purge_witness :
    (2 : Nat) ≠ 3 ∧
    removeFocusElement [⟨2, 4, some 20⟩, ⟨3, 0, none⟩] ⟨⟨3, 5⟩, some 30⟩ ≠ [] ∧
    (removeFocusElement [⟨2, 4, some 20⟩, ⟨3, 0, none⟩] ⟨⟨3, 5⟩, some 30⟩).head?
      = some ⟨2, 4, some 20⟩ ∧
    ∃ o, insertFocusElement 1 [⟨2, 4, some 20⟩, ⟨3, 0, none⟩] ⟨⟨3, 5⟩, some 30⟩ true = some o :=
  ⟨by decide,
    C19_front_defined_after_purge 1 true ⟨2, 4, some 20⟩ [⟨3, 0, none⟩] ⟨⟨3, 5⟩, some 30⟩
      (by decide)⟩

end media

namespace armv7a

/-- C20, what the code does. For a page translation fault
(`(dfsr & FSR_MASK) == FSR_PAGE`) at an address of the paged region
(`PG_PAGED_VBASE <= dfar < PG_PAGED_VEND`), `arm_dataabort` does not reach
`PANIC()`, enters `pg_miss` with `CURRENT_REGS` set to `regs` and with
`xcp.dfar` set to `regs[REG_R15]`, the saved program counter and not the value
of `dfar`, then restores `CURRENT_REGS` to its value on entry and returns `regs`;
for every other `dfar` and `dfsr` it ends in `PANIC()` on the `segfault` path. -/
theorem C20_fault_address_is_saved_pc (c : PagingConstants)
    (pg_miss : HandlerState → HandlerState) (s : HandlerState) (regs : Nat)
    (regsAt : Nat → Nat) (dfar dfsr : Nat) :
    ((dfsr &&& c.FSR_MASK) = c.FSR_PAGE → c.PG_PAGED_VBASE ≤ dfar → dfar < c.PG_PAGED_VEND →
      arm_dataabort c pg_miss s regs regsAt dfar dfsr =
        AbortOutcome.returned regs
          { pg_miss ⟨regs, regsAt c.REG_R15⟩ with CURRENT_REGS := s.CURRENT_REGS }
          ⟨regs, regsAt c.REG_R15⟩) ∧
    (¬ ((dfsr &&& c.FSR_MASK) = c.FSR_PAGE ∧ c.PG_PAGED_VBASE ≤ dfar ∧
        dfar < c.PG_PAGED_VEND) →
      arm_dataabort c pg_miss s regs regsAt dfar dfsr =
        AbortOutcome.panicked ⟨regs, s.xcp_dfar⟩) := by
  constructor
  · intro h1 h2 h3
    have hr : ¬ (dfar < c.PG_PAGED_VBASE ∨ dfar ≥ c.PG_PAGED_VEND) := by omega
    simp [arm_dataabort, h1, hr]
  · intro h
    unfold arm_dataabort
    by_cases h1 : (dfsr &&& c.FSR_MASK) = c.FSR_PAGE
    · have hr : dfar < c.PG_PAGED_VBASE ∨ dfar ≥ c.PG_PAGED_VEND := by
        by_contra hn
        exact h ⟨h1, by omega, by omega⟩
      simp [h1, hr]
    · simp [h1]

/-- Witness of C20 at the failing input: with `FSR_MASK = 15`, `FSR_PAGE = 7`, the
paged region `0x1000 .. 0x2000` and `REG_R15 = 15`, a page fault with
`dfar = 0x1800` whose saved program counter `regs[15]` is `0x400` leaves `0x400`,
not `0x1800`, in `xcp.dfar` when `pg_miss` is entered. -/
theorem C20_fault_address_is_saved_pc_witness :
    ((7 : Nat) &&& 15) = 7 ∧ (0x1000 : Nat) ≤ 0x1800 ∧ (0x1800 : Nat) < 0x2000 ∧
    arm_dataabort ⟨15, 7, 0x1000, 0x2000, 15⟩ id ⟨0, 0⟩ 0x8000
        (fun i => if i = 15 then 0x400 else 0) 0x1800 7 =
      AbortOutcome.returned 0x8000 ⟨0, 0x400⟩ ⟨0x8000, 0x400⟩ ∧
    (0x400 : Nat) ≠ 0x1800 :=
  ⟨by decide, by decide, by decide,
    (C20_fault_address_is_saved_pc ⟨15, 7, 0x1000, 0x2000, 15⟩ id ⟨0, 0⟩ 0x8000
      (fun i => if i = 15 then 0x400 else 0) 0x1800 7).1 (by decide) (by decide) (by decide),
    by decide⟩

end armv7a
